import Mathlib

/-!
Shallow embedding of `kube-core/src/resource.rs`: the `Resource` accessor
trait (identity lookups, `api_version`, `url_path`, metadata access) and the
`ResourceExt` convenience trait (metadata field accessors and mutators).

Rust strings become `String`; `Option<&str>` / `Option<String>` become
`Option String`; `BTreeMap<String, String>` becomes an association list with
key-replacing insert; `&mut`-based mutation is embedded as explicit state
passing (a function applied to the addressed field produces the new object).
-/

/-- Model of `std::collections::BTreeMap<String, String>` as used by
`resource.rs`: an association list of key/value pairs, queried with
`List.lookup`. -/
abbrev StrMap := List (String × String)

/-- Key-replacing insertion, the observable behaviour of
`BTreeMap::insert`: an existing binding of the key is replaced, otherwise
the new pair is added. -/
def StrMap.insert (k v : String) : StrMap → StrMap
  | [] => [(k, v)]
  | (k', v') :: t => if k' = k then (k, v) :: t else (k', v') :: StrMap.insert k v t

/-- Modelled from the spec: an owner-reference record (`OwnerReference` is
declared in the external `k8s-openapi` crate, not in this repository's
sources). The spec treats it as an opaque record; `resource.rs` only moves
whole values of it around, so the exact fields are irrelevant here. -/
structure OwnerReference where
  api_version : String
  kind : String
  name : String
  uid : String
deriving Repr, DecidableEq

/-- Modelled from the spec: the common object-metadata block (`ObjectMeta`
is declared in the external `k8s-openapi` crate). Field presence/optionality
follows spec section 3 and the way `resource.rs` reads the fields:
`name`/`namespace`/`resource_version`/`uid` are optional strings, `labels`
and `annotations` are (non-optional, default empty) string maps,
`owner_references` and `finalizers` are ordered sequences. -/
structure ObjectMeta where
  name : Option String
  «namespace» : Option String
  resource_version : Option String
  uid : Option String
  labels : StrMap
  annotations : StrMap
  owner_references : List OwnerReference
  finalizers : List String
deriving Repr, DecidableEq

/-- A value implementing the `Resource` trait, as far as `ResourceExt` is
concerned: it owns an embedded `ObjectMeta` block (the blanket `impl`
returns `self.metadata()` for `meta()`). -/
structure KubeObject where
  metadata : ObjectMeta
deriving Repr, DecidableEq

/-- The resource identity supplied by the `Resource` trait lookups: the
shallow embedding of the four functions `kind`, `group`, `version`,
`plural` over a `DynamicType` descriptor is a record of the four returned
strings. -/
structure Descriptor where
  kind : String
  group : String
  version : String
  plural : String
deriving Repr, DecidableEq

/-- Embedding of `Resource::api_version` (resource.rs lines 34-43): the
version when the group is empty, otherwise the group, a slash, and the
version. -/
def Resource.api_version (d : Descriptor) : String :=
  if d.group.isEmpty then d.version
  else d.group ++ "/" ++ d.version

/-- The `let n` binding of `Resource::url_path` (resource.rs lines 51-55),
lifted to a named helper: the namespace path component. -/
def Resource.nsPart : Option String → String
  | some ns => "namespaces/" ++ ns ++ "/"
  | none => ""

/-- Embedding of `Resource::url_path` (resource.rs lines 50-66): a slash,
then `api` or `apis` depending on group emptiness, a slash, the
`api_version`, a slash, the namespace component, and the plural. -/
def Resource.url_path (d : Descriptor) (ns : Option String) : String :=
  "/" ++ (if d.group.isEmpty then "api" else "apis") ++ "/" ++ Resource.api_version d ++ "/"
    ++ Resource.nsPart ns ++ d.plural

/-- Embedding of `Resource::meta` for the blanket implementation
(resource.rs lines 101-103): the embedded metadata block. -/
def Resource.meta (o : KubeObject) : ObjectMeta := o.metadata

/-- Embedding of mutation through `Resource::meta_mut` (resource.rs lines
105-107): applying `f` to the metadata block the returned `&mut ObjectMeta`
points at produces the updated object. -/
def Resource.meta_mut_apply (f : ObjectMeta → ObjectMeta) (o : KubeObject) : KubeObject :=
  { o with metadata := f o.metadata }

/-- The single error kind of the spec's error model: `MissingField`. The
source realises it as the `expect(".metadata.name missing")` panic in
`ResourceExt::name`. -/
inductive MetaError where
  | missingField
deriving Repr, DecidableEq

/-- Embedding of `ResourceExt::name` (resource.rs lines 147-149): the
stored name when present; the `expect` panic on an absent name is embedded
as the `MissingField` error. -/
def ResourceExt.name (o : KubeObject) : Except MetaError String :=
  match (Resource.meta o).name with
  | some n => Except.ok n
  | none => Except.error MetaError.missingField

/-- Embedding of `ResourceExt::namespace` (resource.rs lines 151-153). -/
def ResourceExt.«namespace» (o : KubeObject) : Option String :=
  (Resource.meta o).«namespace»

/-- Embedding of `ResourceExt::resource_version` (resource.rs lines 155-157). -/
def ResourceExt.resource_version (o : KubeObject) : Option String :=
  (Resource.meta o).resource_version

/-- Embedding of `ResourceExt::uid` (resource.rs lines 159-161). -/
def ResourceExt.uid (o : KubeObject) : Option String :=
  (Resource.meta o).uid

/-- Embedding of `ResourceExt::labels` (resource.rs lines 163-165). -/
def ResourceExt.labels (o : KubeObject) : StrMap :=
  (Resource.meta o).labels

/-- Embedding of mutation through `ResourceExt::labels_mut` (resource.rs
lines 167-169): the `&mut` reference addresses the `labels` field of the
block reached through `meta_mut`, so a mutation `f` performed through it
rewrites exactly that field. -/
def ResourceExt.labels_mut_apply (f : StrMap → StrMap) (o : KubeObject) : KubeObject :=
  Resource.meta_mut_apply (fun m => { m with labels := f m.labels }) o

/-- Embedding of `ResourceExt::annotations` (resource.rs lines 171-173). -/
def ResourceExt.annotations (o : KubeObject) : StrMap :=
  (Resource.meta o).annotations

/-- Embedding of mutation through `ResourceExt::annotations_mut`
(resource.rs lines 175-177). -/
def ResourceExt.annotations_mut_apply (f : StrMap → StrMap) (o : KubeObject) : KubeObject :=
  Resource.meta_mut_apply (fun m => { m with annotations := f m.annotations }) o

/-- Embedding of `ResourceExt::owner_references` (resource.rs lines 179-181). -/
def ResourceExt.owner_references (o : KubeObject) : List OwnerReference :=
  (Resource.meta o).owner_references

/-- Embedding of mutation through `ResourceExt::owner_references_mut`
(resource.rs lines 183-185). -/
def ResourceExt.owner_references_mut_apply (f : List OwnerReference → List OwnerReference)
    (o : KubeObject) : KubeObject :=
  Resource.meta_mut_apply (fun m => { m with owner_references := f m.owner_references }) o

/-- Embedding of `ResourceExt::finalizers` (resource.rs lines 187-189). -/
def ResourceExt.finalizers (o : KubeObject) : List String :=
  (Resource.meta o).finalizers

/-- Embedding of mutation through `ResourceExt::finalizers_mut`
(resource.rs lines 191-193). -/
def ResourceExt.finalizers_mut_apply (f : List String → List String)
    (o : KubeObject) : KubeObject :=
  Resource.meta_mut_apply (fun m => { m with finalizers := f m.finalizers }) o

/-- A string is path-safe when it contains no path separator. -/
def pathSafe (s : String) : Prop := ∀ c ∈ s.data, c ≠ '/'

instance (s : String) : Decidable (pathSafe s) := by
  unfold pathSafe
  exact List.decidableBAll _ _

/-- Well-formed descriptor as the claims use the term: non-empty version
and non-empty, path-safe plural. -/
def wellFormed (d : Descriptor) : Prop :=
  d.version ≠ "" ∧ d.plural ≠ "" ∧ pathSafe d.plural

instance (d : Descriptor) : Decidable (wellFormed d) := by
  unfold wellFormed
  infer_instance

/-- Splitting a character list into the path segments delimited by the
separator character. -/
def splitSeg : List Char → List (List Char)
  | [] => [[]]
  | c :: cs =>
    if c = '/' then [] :: splitSeg cs
    else
      match splitSeg cs with
      | [] => [[c]]
      | s :: ss => (c :: s) :: ss

/-! Helper lemmas. -/

lemma data_api_sl : ("/api/" : String).data = ['/', 'a', 'p', 'i', '/'] := rfl

lemma data_apis_sl : ("/apis/" : String).data = ['/', 'a', 'p', 'i', 's', '/'] := rfl

lemma data_slash : ("/" : String).data = ['/'] := rfl

lemma data_api : ("api" : String).data = ['a', 'p', 'i'] := rfl

lemma data_apis : ("apis" : String).data = ['a', 'p', 'i', 's'] := rfl

lemma isEmpty_false_of_ne {g : String} (h : g ≠ "") : g.isEmpty = false := by
  rw [Bool.eq_false_iff]
  exact fun hc => h ((String.isEmpty_iff g).mp hc)

lemma url_path_data_empty (k v p : String) (o : Option String) :
    (Resource.url_path ⟨k, "", v, p⟩ o).data
      = '/' :: 'a' :: 'p' :: 'i' :: '/' :: (v.data ++ '/' :: ((Resource.nsPart o).data ++ p.data)) := by
  simp [Resource.url_path, Resource.api_version, show ("" : String).isEmpty = true from rfl,
    String.data_append, data_slash, data_api, data_apis]

lemma url_path_data_nonempty (k g v p : String) (h : g ≠ "") (o : Option String) :
    (Resource.url_path ⟨k, g, v, p⟩ o).data
      = '/' :: 'a' :: 'p' :: 'i' :: 's' :: '/'
        :: (g.data ++ '/' :: (v.data ++ '/' :: ((Resource.nsPart o).data ++ p.data))) := by
  simp [Resource.url_path, Resource.api_version, isEmpty_false_of_ne h,
    String.data_append, data_slash, data_api, data_apis]

lemma splitSeg_ne_nil (l : List Char) : splitSeg l ≠ [] := by
  cases l with
  | nil => simp [splitSeg]
  | cons c cs =>
    simp only [splitSeg]
    split
    · simp
    · split <;> simp

lemma splitSeg_slashfree (l : List Char) (h : '/' ∉ l) : splitSeg l = [l] := by
  induction l with
  | nil => rfl
  | cons c cs ih =>
    have hc : c ≠ '/' := fun hc => h (hc ▸ List.mem_cons_self c cs)
    have hcs : '/' ∉ cs := fun hm => h (List.mem_cons_of_mem c hm)
    simp only [splitSeg, if_neg hc, ih hcs]

lemma splitSeg_append (xs ys : List Char) (h : '/' ∉ xs) :
    splitSeg (xs ++ '/' :: ys) = xs :: splitSeg ys := by
  induction xs with
  | nil => simp [splitSeg]
  | cons c cs ih =>
    have hc : c ≠ '/' := fun hc => h (hc ▸ List.mem_cons_self c cs)
    have hcs : '/' ∉ cs := fun hm => h (List.mem_cons_of_mem c hm)
    simp only [List.cons_append, splitSeg, if_neg hc, List.append_eq, ih hcs]

lemma exists_seg_of_eq (q : List Char) (hq : '/' ∉ q) :
    ∀ (a b s : List Char), s = a ++ (q ++ '/' :: b) →
      ∃ seg ∈ (splitSeg s).dropLast, q <:+ seg := by
  intro a
  induction a with
  | nil =>
    intro b s hs
    subst hs
    rw [List.nil_append, splitSeg_append q b hq]
    cases hsb : splitSeg b with
    | nil => exact absurd hsb (splitSeg_ne_nil b)
    | cons x xs =>
      rw [List.dropLast_cons₂]
      exact ⟨q, List.mem_cons_self _ _, List.suffix_refl q⟩
  | cons c a' ih =>
    intro b s hs
    obtain ⟨seg, hmem, hsuf⟩ := ih b (a' ++ (q ++ '/' :: b)) rfl
    subst hs
    rw [List.cons_append]
    by_cases hc : c = '/'
    · subst hc
      rw [show splitSeg ('/' :: (a' ++ (q ++ '/' :: b))) = [] :: splitSeg (a' ++ (q ++ '/' :: b))
          from by simp [splitSeg]]
      cases hsp : splitSeg (a' ++ (q ++ '/' :: b)) with
      | nil => exact absurd hsp (splitSeg_ne_nil _)
      | cons x xs =>
        rw [List.dropLast_cons₂]
        rw [hsp] at hmem
        exact ⟨seg, List.mem_cons_of_mem _ hmem, hsuf⟩
    · cases hsp : splitSeg (a' ++ (q ++ '/' :: b)) with
      | nil => exact absurd hsp (splitSeg_ne_nil _)
      | cons x xs =>
        rw [show splitSeg (c :: (a' ++ (q ++ '/' :: b))) = (c :: x) :: xs
            from by simp only [splitSeg, if_neg hc, hsp]]
        rw [hsp] at hmem
        cases xs with
        | nil => simp at hmem
        | cons y ys =>
          rw [List.dropLast_cons₂] at hmem ⊢
          rcases List.mem_cons.mp hmem with heq | hmem'
          · subst heq
            exact ⟨c :: seg, List.mem_cons_self _ _, hsuf.trans (List.suffix_cons c seg)⟩
          · exact ⟨seg, List.mem_cons_of_mem _ hmem', hsuf⟩

lemma infix_slash_segment (q s : List Char) (hq : '/' ∉ q)
    (h : (q ++ ['/']) <:+: s) : ∃ seg ∈ (splitSeg s).dropLast, q <:+ seg := by
  obtain ⟨a, b, hab⟩ := h
  exact exists_seg_of_eq q hq a b s (by rw [← hab]; simp)

lemma splitSeg_url_empty (v p : List Char) (hv : '/' ∉ v) (hp : '/' ∉ p) :
    splitSeg ('/' :: 'a' :: 'p' :: 'i' :: '/' :: (v ++ '/' :: p))
      = [[], ['a', 'p', 'i'], v, p] := by
  rw [show ('/' :: 'a' :: 'p' :: 'i' :: '/' :: (v ++ '/' :: p))
      = [] ++ '/' :: (['a', 'p', 'i'] ++ '/' :: (v ++ '/' :: p)) from by simp]
  rw [splitSeg_append [] _ (by decide), splitSeg_append ['a', 'p', 'i'] _ (by decide),
    splitSeg_append v _ hv, splitSeg_slashfree p hp]

lemma splitSeg_url_nonempty (g v p : List Char) (hg : '/' ∉ g) (hv : '/' ∉ v) (hp : '/' ∉ p) :
    splitSeg ('/' :: 'a' :: 'p' :: 'i' :: 's' :: '/' :: (g ++ '/' :: (v ++ '/' :: p)))
      = [[], ['a', 'p', 'i', 's'], g, v, p] := by
  rw [show ('/' :: 'a' :: 'p' :: 'i' :: 's' :: '/' :: (g ++ '/' :: (v ++ '/' :: p)))
      = [] ++ '/' :: (['a', 'p', 'i', 's'] ++ '/' :: (g ++ '/' :: (v ++ '/' :: p))) from by simp]
  rw [splitSeg_append [] _ (by decide), splitSeg_append ['a', 'p', 'i', 's'] _ (by decide),
    splitSeg_append g _ hg, splitSeg_append v _ hv, splitSeg_slashfree p hp]

lemma lookup_insert (k v : String) (m : StrMap) :
    List.lookup k (StrMap.insert k v m) = some v := by
  induction m with
  | nil => simp [StrMap.insert, List.lookup]
  | cons hd t ih =>
    obtain ⟨k', v'⟩ := hd
    by_cases h : k' = k
    · subst h
      simp [StrMap.insert, List.lookup]
    · simp only [StrMap.insert, if_neg h, List.lookup,
        show (k == k') = false from beq_eq_false_iff_ne.mpr (Ne.symm h), ih]

/-! Claim theorems. -/

/-- Claim C1, counterexample: the claimed empty-group formula omits the
separator slash after the version. For group `""`, version `"v1"`,
plural `"pods"`, namespace `some "default"` (a well-formed descriptor),
`url_path` returns `/api/v1/namespaces/default/pods`, which is not the
claimed `"/api/" ++ "v1" ++ ("namespaces/" ++ "default" ++ "/") ++ "pods"`
(that string is `/api/v1namespaces/default/pods`). -/
theorem claim_C1_counterexample :
    wellFormed ⟨"Pod", "", "v1", "pods"⟩ ∧
    Resource.url_path ⟨"Pod", "", "v1", "pods"⟩ (some "default")
      = "/api/v1/namespaces/default/pods" ∧
    Resource.url_path ⟨"Pod", "", "v1", "pods"⟩ (some "default")
      ≠ "/api/" ++ "v1" ++ ("namespaces/" ++ "default" ++ "/") ++ "pods" :=
  ⟨by decide, by decide, by decide⟩

/-- Claim C1 (amended): for every well-formed descriptor and optional
namespace, `url_path` returns `"/api/" + version + "/" + namespacePart +
plural` when the group is empty (with the separator slash after the
version that the original claim omitted), and `"/apis/" + group + "/" +
version + "/" + namespacePart + plural` when the group is non-empty; in
particular the Pod descriptor with namespace `default` yields
`/api/v1/namespaces/default/pods`. -/
theorem claim_C1_amended (d : Descriptor) (ns : Option String) (hwf : wellFormed d) :
    (d.group = "" →
      Resource.url_path d ns
        = "/api/" ++ d.version ++ "/" ++ Resource.nsPart ns ++ d.plural) ∧
    (d.group ≠ "" →
      Resource.url_path d ns
        = "/apis/" ++ d.group ++ "/" ++ d.version ++ "/" ++ Resource.nsPart ns ++ d.plural) ∧
    Resource.url_path ⟨"Pod", "", "v1", "pods"⟩ (some "default")
      = "/api/v1/namespaces/default/pods" := by
  obtain ⟨k, g, v, p⟩ := d
  refine ⟨fun hg => ?_, fun hg => ?_, by decide⟩
  · subst hg
    rfl
  · apply String.ext
    simp [Resource.url_path, Resource.api_version, isEmpty_false_of_ne hg, String.data_append,
      data_slash, data_api, data_apis, data_api_sl, data_apis_sl]

/-- Witness for claim C1: the amended theorem applied to the core Pod
descriptor with namespace `default`. -/
theorem claim_C1_witness :
    Resource.url_path ⟨"Pod", "", "v1", "pods"⟩ (some "default")
      = "/api/" ++ "v1" ++ "/" ++ Resource.nsPart (some "default") ++ "pods" :=
  (claim_C1_amended ⟨"Pod", "", "v1", "pods"⟩ (some "default") (by decide)).1 rfl

/-- Claim C2: `api_version` is the bare version for an empty group and
`group + "/" + version` otherwise, and `url_path` starts with `/api/`
exactly when the group is empty and with `/apis/` otherwise. -/
theorem claim_C2 (d : Descriptor) (ns : Option String) :
    (d.group = "" → Resource.api_version d = d.version) ∧
    (d.group ≠ "" → Resource.api_version d = d.group ++ "/" ++ d.version) ∧
    ("/api/".data <+: (Resource.url_path d ns).data ↔ d.group = "") ∧
    (d.group ≠ "" → "/apis/".data <+: (Resource.url_path d ns).data) := by
  obtain ⟨k, g, v, p⟩ := d
  refine ⟨fun hg => ?_, fun hg => ?_, ⟨fun hpre => ?_, fun hg => ?_⟩, fun hg => ?_⟩
  · subst hg
    rfl
  · simp [Resource.api_version, isEmpty_false_of_ne hg]
  · by_cases hg : g = ""
    · exact hg
    · exfalso
      obtain ⟨t, ht⟩ := hpre
      rw [url_path_data_nonempty k g v p hg, data_api_sl] at ht
      simp at ht
  · subst hg
    rw [url_path_data_empty, data_api_sl]
    exact ⟨_, rfl⟩
  · rw [url_path_data_nonempty k g v p hg, data_apis_sl]
    exact ⟨_, rfl⟩

/-- Witness for claim C2: instantiated at the core Pod descriptor (empty
group) and the apps/v1 Deployment descriptor (non-empty group). -/
theorem claim_C2_witness :
    Resource.api_version ⟨"Pod", "", "v1", "pods"⟩ = "v1" ∧
    Resource.api_version ⟨"Deployment", "apps", "v1", "deployments"⟩ = "apps" ++ "/" ++ "v1" :=
  ⟨(claim_C2 ⟨"Pod", "", "v1", "pods"⟩ none).1 rfl,
   (claim_C2 ⟨"Deployment", "apps", "v1", "deployments"⟩ none).2.1 (by decide)⟩

/-- Claim C3: for a well-formed descriptor and a non-empty path-safe
namespace, `url_path` decomposes as a prefix ending in the apiVersion and
its separator, immediately followed by the exact substring
`"namespaces/" + ns + "/"`, immediately followed by the plural. -/
theorem claim_C3 (d : Descriptor) (ns : String) (hwf : wellFormed d) (hne : ns ≠ "")
    (hsafe : pathSafe ns) :
    Resource.url_path d (some ns)
      = ("/" ++ (if d.group.isEmpty then "api" else "apis") ++ "/"
          ++ Resource.api_version d ++ "/")
        ++ ("namespaces/" ++ ns ++ "/") ++ d.plural := rfl

/-- Witness for claim C3: the apps/v1 Deployment descriptor with namespace
`kube-system`. -/
theorem claim_C3_witness :
    Resource.url_path ⟨"Deployment", "apps", "v1", "deployments"⟩ (some "kube-system")
      = ("/" ++ (if ("apps" : String).isEmpty then "api" else "apis") ++ "/"
          ++ Resource.api_version ⟨"Deployment", "apps", "v1", "deployments"⟩ ++ "/")
        ++ ("namespaces/" ++ "kube-system" ++ "/") ++ "deployments" :=
  claim_C3 ⟨"Deployment", "apps", "v1", "deployments"⟩ "kube-system"
    (by decide) (by decide) (by decide)

/-- Claim C4, counterexample: the component strings are interpolated
unvalidated, so a well-formed descriptor whose version is the string
`namespaces` makes `url_path` with namespace `none` produce
`/api/namespaces/pods`, which does contain the substring (and path
segment) `namespaces/`. -/
theorem claim_C4_counterexample :
    wellFormed ⟨"Foo", "", "namespaces", "pods"⟩ ∧
    Resource.url_path ⟨"Foo", "", "namespaces", "pods"⟩ none = "/api/namespaces/pods" ∧
    "namespaces/".data <:+: (Resource.url_path ⟨"Foo", "", "namespaces", "pods"⟩ none).data :=
  ⟨by decide, by decide, ⟨"/api/".data, "pods".data, by decide⟩⟩

/-- Claim C4 (amended): for a well-formed descriptor whose group and
version are also path-safe and do not end with `namespaces`, `url_path`
with namespace `none` contains no occurrence of the string `namespaces/`. -/
theorem claim_C4_amended (d : Descriptor) (hwf : wellFormed d)
    (hg : pathSafe d.group) (hv : pathSafe d.version)
    (hgs : ¬ ("namespaces".data <:+ d.group.data))
    (hvs : ¬ ("namespaces".data <:+ d.version.data)) :
    ¬ ("namespaces/".data <:+: (Resource.url_path d none).data) := by
  obtain ⟨k, g, v, p⟩ := d
  intro hinf
  obtain ⟨-, -, hps⟩ := hwf
  have hgslash : '/' ∉ g.data := fun hm => hg '/' hm rfl
  have hvslash : '/' ∉ v.data := fun hm => hv '/' hm rfl
  have hpslash : '/' ∉ p.data := fun hm => hps '/' hm rfl
  have hq : '/' ∉ "namespaces".data := by decide
  rw [show ("namespaces/" : String).data = "namespaces".data ++ ['/'] from rfl] at hinf
  obtain ⟨seg, hmem, hsuf⟩ := infix_slash_segment _ _ hq hinf
  by_cases hge : g = ""
  · subst hge
    rw [url_path_data_empty, show (Resource.nsPart none).data = ([] : List Char) from rfl,
      List.nil_append, splitSeg_url_empty v.data p.data hvslash hpslash] at hmem
    simp only [List.dropLast, List.mem_cons, List.not_mem_nil, or_false] at hmem
    rcases hmem with h | h | h
    · subst h
      exact absurd (List.suffix_nil.mp hsuf) (by decide)
    · subst h
      exact absurd hsuf (by decide)
    · subst h
      exact hvs hsuf
  · rw [url_path_data_nonempty k g v p hge, show (Resource.nsPart none).data = ([] : List Char)
      from rfl, List.nil_append, splitSeg_url_nonempty g.data v.data p.data hgslash hvslash
      hpslash] at hmem
    simp only [List.dropLast, List.mem_cons, List.not_mem_nil, or_false] at hmem
    rcases hmem with h | h | h | h
    · subst h
      exact absurd (List.suffix_nil.mp hsuf) (by decide)
    · subst h
      exact absurd hsuf (by decide)
    · subst h
      exact hgs hsuf
    · subst h
      exact hvs hsuf

/-- Witness for claim C4: the cluster-scoped core Pod collection path
`/api/v1/pods` contains no `namespaces/`. -/
theorem claim_C4_witness :
    ¬ ("namespaces/".data <:+: (Resource.url_path ⟨"Pod", "", "v1", "pods"⟩ none).data) :=
  claim_C4_amended ⟨"Pod", "", "v1", "pods"⟩ (by decide) (by decide) (by decide)
    (by decide) (by decide)

/-- Claim C5: `name` returns the stored metadata name exactly when one is
present, and returns the `MissingField` error exactly when the underlying
metadata has no name. (Every other accessor in the embedding is a total
function into a plain value type, so no other accessor can produce
`MissingField`.) -/
theorem claim_C5 (o : KubeObject) :
    (ResourceExt.name o = Except.error MetaError.missingField ↔ (Resource.meta o).name = none) ∧
    (∀ v, ResourceExt.name o = Except.ok v ↔ (Resource.meta o).name = some v) := by
  cases h : (Resource.meta o).name <;> simp [ResourceExt.name, h]

/-- A concrete resource value with empty collections, used by witnesses. -/
def sampleObj : KubeObject :=
  ⟨⟨some "mypod", some "default", some "12", some "abcd", [], [], [], []⟩⟩

/-- Claim C6: `labels` and `annotations` are total and return the empty
mapping on an object whose metadata has no labels (respectively
annotations) set, and `namespace`, `resource_version`, `uid` return the
stored optional value directly; none of them can fail (they are plain
functions into plain value types). -/
theorem claim_C6 (o : KubeObject)
    (hl : (Resource.meta o).labels = []) (ha : (Resource.meta o).annotations = []) :
    ResourceExt.labels o = [] ∧ ResourceExt.annotations o = [] ∧
    ResourceExt.«namespace» o = (Resource.meta o).«namespace» ∧
    ResourceExt.resource_version o = (Resource.meta o).resource_version ∧
    ResourceExt.uid o = (Resource.meta o).uid :=
  ⟨hl, ha, rfl, rfl, rfl⟩

/-- Witness for claim C6: the sample object with unset labels and
annotations. -/
theorem claim_C6_witness :
    ResourceExt.labels sampleObj = [] ∧ ResourceExt.annotations sampleObj = [] ∧
    ResourceExt.«namespace» sampleObj = (Resource.meta sampleObj).«namespace» ∧
    ResourceExt.resource_version sampleObj = (Resource.meta sampleObj).resource_version ∧
    ResourceExt.uid sampleObj = (Resource.meta sampleObj).uid :=
  claim_C6 sampleObj rfl rfl

/-- Claim C7: mutation through `labels_mut` (and `annotations_mut`) is
observed by the immediately following read of `labels` (respectively
`annotations`) — both address the same underlying storage — and in
particular inserting a pair and then reading yields a mapping containing
that pair. -/
theorem claim_C7 (o : KubeObject) (k v : String) :
    (∀ f, ResourceExt.labels (ResourceExt.labels_mut_apply f o) = f (ResourceExt.labels o)) ∧
    (∀ f, ResourceExt.annotations (ResourceExt.annotations_mut_apply f o)
        = f (ResourceExt.annotations o)) ∧
    List.lookup k (ResourceExt.labels (ResourceExt.labels_mut_apply (StrMap.insert k v) o))
      = some v :=
  ⟨fun _ => rfl, fun _ => rfl, lookup_insert k v (ResourceExt.labels o)⟩

/-- Claim C8: `url_path` is deterministic — equal descriptor values and
equal optional namespaces give equal result strings. (Totality and purity
hold by construction: the embedding is a plain function into `String`,
with no error case and no effects.) -/
theorem claim_C8 (d₁ d₂ : Descriptor) (ns₁ ns₂ : Option String)
    (hd : d₁ = d₂) (hns : ns₁ = ns₂) :
    Resource.url_path d₁ ns₁ = Resource.url_path d₂ ns₂ := by
  rw [hd, hns]

/-- Witness for claim C8: two invocations on the core Pod descriptor with
namespace `default` agree. -/
theorem claim_C8_witness :
    Resource.url_path ⟨"Pod", "", "v1", "pods"⟩ (some "default")
      = Resource.url_path ⟨"Pod", "", "v1", "pods"⟩ (some "default") :=
  claim_C8 ⟨"Pod", "", "v1", "pods"⟩ ⟨"Pod", "", "v1", "pods"⟩
    (some "default") (some "default") rfl rfl

/-- Claim C9: each mutable accessor touches only its own field — after any
mutation through `labels_mut` (respectively `annotations_mut`,
`owner_references_mut`, `finalizers_mut`), the name, namespace,
resourceVersion, uid and the other three collections of the metadata
block are unchanged. -/
theorem claim_C9 (o : KubeObject) (f g : StrMap → StrMap)
    (h : List OwnerReference → List OwnerReference) (i : List String → List String) :
    ((Resource.meta (ResourceExt.labels_mut_apply f o)).name = (Resource.meta o).name ∧
     (Resource.meta (ResourceExt.labels_mut_apply f o)).«namespace»
        = (Resource.meta o).«namespace» ∧
     (Resource.meta (ResourceExt.labels_mut_apply f o)).resource_version
        = (Resource.meta o).resource_version ∧
     (Resource.meta (ResourceExt.labels_mut_apply f o)).uid = (Resource.meta o).uid ∧
     (Resource.meta (ResourceExt.labels_mut_apply f o)).annotations
        = (Resource.meta o).annotations ∧
     (Resource.meta (ResourceExt.labels_mut_apply f o)).owner_references
        = (Resource.meta o).owner_references ∧
     (Resource.meta (ResourceExt.labels_mut_apply f o)).finalizers
        = (Resource.meta o).finalizers) ∧
    ((Resource.meta (ResourceExt.annotations_mut_apply g o)).name = (Resource.meta o).name ∧
     (Resource.meta (ResourceExt.annotations_mut_apply g o)).«namespace»
        = (Resource.meta o).«namespace» ∧
     (Resource.meta (ResourceExt.annotations_mut_apply g o)).resource_version
        = (Resource.meta o).resource_version ∧
     (Resource.meta (ResourceExt.annotations_mut_apply g o)).uid = (Resource.meta o).uid ∧
     (Resource.meta (ResourceExt.annotations_mut_apply g o)).labels = (Resource.meta o).labels ∧
     (Resource.meta (ResourceExt.annotations_mut_apply g o)).owner_references
        = (Resource.meta o).owner_references ∧
     (Resource.meta (ResourceExt.annotations_mut_apply g o)).finalizers
        = (Resource.meta o).finalizers) ∧
    ((Resource.meta (ResourceExt.owner_references_mut_apply h o)).name
        = (Resource.meta o).name ∧
     (Resource.meta (ResourceExt.owner_references_mut_apply h o)).«namespace»
        = (Resource.meta o).«namespace» ∧
     (Resource.meta (ResourceExt.owner_references_mut_apply h o)).resource_version
        = (Resource.meta o).resource_version ∧
     (Resource.meta (ResourceExt.owner_references_mut_apply h o)).uid = (Resource.meta o).uid ∧
     (Resource.meta (ResourceExt.owner_references_mut_apply h o)).labels
        = (Resource.meta o).labels ∧
     (Resource.meta (ResourceExt.owner_references_mut_apply h o)).annotations
        = (Resource.meta o).annotations ∧
     (Resource.meta (ResourceExt.owner_references_mut_apply h o)).finalizers
        = (Resource.meta o).finalizers) ∧
    ((Resource.meta (ResourceExt.finalizers_mut_apply i o)).name = (Resource.meta o).name ∧
     (Resource.meta (ResourceExt.finalizers_mut_apply i o)).«namespace»
        = (Resource.meta o).«namespace» ∧
     (Resource.meta (ResourceExt.finalizers_mut_apply i o)).resource_version
        = (Resource.meta o).resource_version ∧
     (Resource.meta (ResourceExt.finalizers_mut_apply i o)).uid = (Resource.meta o).uid ∧
     (Resource.meta (ResourceExt.finalizers_mut_apply i o)).labels = (Resource.meta o).labels ∧
     (Resource.meta (ResourceExt.finalizers_mut_apply i o)).annotations
        = (Resource.meta o).annotations ∧
     (Resource.meta (ResourceExt.finalizers_mut_apply i o)).owner_references
        = (Resource.meta o).owner_references) :=
  ⟨⟨rfl, rfl, rfl, rfl, rfl, rfl, rfl⟩, ⟨rfl, rfl, rfl, rfl, rfl, rfl, rfl⟩,
   ⟨rfl, rfl, rfl, rfl, rfl, rfl, rfl⟩, ⟨rfl, rfl, rfl, rfl, rfl, rfl, rfl⟩⟩

/-- Claim C10: the namespace argument is interpolated verbatim with no
validation or escaping — for every descriptor the argument string appears
unchanged between `namespaces/` and the following slash, and for
namespace `some ""` the result contains the substring `namespaces//`. -/
theorem claim_C10 (d : Descriptor) (ns : String) :
    Resource.url_path d (some ns)
      = "/" ++ (if d.group.isEmpty then "api" else "apis") ++ "/" ++ Resource.api_version d
        ++ "/" ++ ("namespaces/" ++ ns ++ "/") ++ d.plural ∧
    ∃ pre suf, Resource.url_path d (some "") = pre ++ "namespaces//" ++ suf :=
  ⟨rfl,
   ⟨"/" ++ (if d.group.isEmpty then "api" else "apis") ++ "/" ++ Resource.api_version d ++ "/",
    d.plural, rfl⟩⟩
